import Mathlib

/-!
Shallow embedding of the copygen-api core (src/generator/services/):
the persuasion scorer (scoring.py), the prompt builder (prompt_engine.py)
and the variation parser (openai_client.py), together with theorems that
settle the frozen claims about them.

Modelling conventions:
* Python `float` arithmetic is modelled exactly, with ℚ for the computable
  sub-scores and ℝ for the final score (the readability sub-score uses
  `math.sqrt`).
* Python strings are Lean `String`s (sequences of unicode code points, so
  `len` is `String.length`).
* `str.lower`, `str.strip`, `str.split` and the regex character classes
  `\d`, `\s`, `\w` are modelled on their ASCII behaviour, which is exact for
  every string the theorems evaluate.
-/

/-! ### Python string helpers -/

/-- The whitespace characters recognised by `str.strip()` / `str.split()`
(and by the regex class `\s`), restricted to ASCII. -/
def pyIsSpace (c : Char) : Bool :=
  c = ' ' || c = '\t' || c = '\n' || c = '\r' || c = '\x0b' || c = '\x0c'

/-- Python `str.lower()` (ASCII). -/
def pyLower (s : String) : String := String.mk (s.data.map Char.toLower)

/-- Drop elements satisfying `p` from both ends of a list. -/
def stripBoth (p : Char → Bool) (cs : List Char) : List Char :=
  ((cs.dropWhile p).reverse.dropWhile p).reverse

/-- Python `str.strip()` with no argument. -/
def pyStrip (s : String) : String := String.mk (stripBoth pyIsSpace s.data)

/-- Python `str.strip(chars)`: remove the given characters from both ends. -/
def stripChars (chars : List Char) (s : String) : String :=
  String.mk (stripBoth (fun c => chars.contains c) s.data)

/-- Worker for `pySplit`: `acc` holds the reversed current word. -/
def pySplitAux : List Char → List Char → List String
  | acc, [] => if acc = [] then [] else [String.mk acc.reverse]
  | acc, c :: t =>
    if pyIsSpace c then
      if acc = [] then pySplitAux [] t
      else String.mk acc.reverse :: pySplitAux [] t
    else pySplitAux (c :: acc) t

/-- Python `str.split()` with no argument: split on whitespace runs,
discarding empty pieces. -/
def pySplit (s : String) : List String := pySplitAux [] s.data

/-- Boolean list-prefix test. -/
def isPrefixB : List Char → List Char → Bool
  | [], _ => true
  | _ :: _, [] => false
  | a :: as, b :: bs => a == b && isPrefixB as bs

/-- Boolean list-infix test. -/
def isInfixB : List Char → List Char → Bool
  | n, [] => isPrefixB n []
  | n, h :: t => isPrefixB n (h :: t) || isInfixB n t

/-- Python's substring operator `needle in hay`. -/
def pyIn (needle hay : String) : Bool := isInfixB needle.data hay.data

/-! ### A tiny matcher algebra for the regex patterns of scoring.py

A matcher maps an input suffix to the list of remainders after every way of
consuming a prefix; `re.search` existence is "some suffix of the input
admits a nonempty remainder list". -/

/-- Match a literal string. -/
def mLit (lit : String) : List Char → List (List Char) := fun cs =>
  if isPrefixB lit.data cs then [cs.drop lit.data.length] else []

/-- Match one character satisfying `p`. -/
def mPred (p : Char → Bool) : List Char → List (List Char) := fun cs =>
  match cs with
  | [] => []
  | c :: rest => if p c then [rest] else []

/-- Sequencing of matchers. -/
def mSeq (a b : List Char → List (List Char)) : List Char → List (List Char) :=
  fun cs => (a cs).flatMap b

/-- Alternation of matchers. -/
def mAlt (a b : List Char → List (List Char)) : List Char → List (List Char) :=
  fun cs => a cs ++ b cs

/-- Alternation over a list of matchers (regex group `(x|y|...)`). -/
def mAltList (ms : List (List Char → List (List Char))) :
    List Char → List (List Char) :=
  fun cs => ms.flatMap (fun m => m cs)

/-- `?` (zero or one). -/
def mOpt (a : List Char → List (List Char)) : List Char → List (List Char) :=
  fun cs => cs :: a cs

/-- Fuelled Kleene star. -/
def mStarFuel (a : List Char → List (List Char)) : ℕ → List Char → List (List Char)
  | 0 => fun cs => [cs]
  | n + 1 => fun cs => cs :: (a cs).flatMap (mStarFuel a n)

/-- `*` (zero or more); every matcher we star consumes at least one
character, so fuel `cs.length` is exhaustive. -/
def mStar (a : List Char → List (List Char)) : List Char → List (List Char) :=
  fun cs => mStarFuel a cs.length cs

/-- `+` of a single-character class. -/
def mPlusPred (p : Char → Bool) : List Char → List (List Char) :=
  mSeq (mPred p) (mStar (mPred p))

/-- `re.search`: does the pattern match starting at some position? -/
def mSearch (m : List Char → List (List Char)) : List Char → Bool
  | [] => !(m []).isEmpty
  | c :: t => !(m (c :: t)).isEmpty || mSearch m t

/-- Regex `\w` (ASCII). -/
def isWordChar (c : Char) : Bool := c.isAlphanum || c = '_'

/-- Regex `\b` placed after a word character: succeed without consuming when
the remainder starts with a non-word character or is empty. -/
def mWordEnd : List Char → List (List Char) := fun cs =>
  match cs with
  | [] => [[]]
  | c :: _ => if isWordChar c then [] else [cs]

/-! ### scoring.py constants -/

def STRONG_CTAS : List String :=
  ["buy now", "shop now", "get started", "sign up", "subscribe",
   "download", "try free", "claim your", "start your", "join now",
   "book now", "learn more", "get yours", "order now", "grab yours",
   "reserve your", "unlock", "discover", "apply now", "start free"]

def POWER_WORDS : List String :=
  ["free", "new", "proven", "guaranteed", "exclusive", "limited",
   "instant", "revolutionary", "breakthrough", "secret", "powerful",
   "ultimate", "premium", "transform", "unleash", "effortless",
   "remarkable", "stunning", "unbelievable", "incredible", "essential",
   "massive", "epic", "game-changing", "dominant"]

def EMOTIONAL_WORDS : List String :=
  ["love", "hate", "fear", "joy", "trust", "surprise", "amazing",
   "thrilled", "devastating", "exciting", "inspiring", "passionate",
   "obsessed", "dreaming", "craving", "confident", "proud", "bold",
   "grateful", "delighted", "anxious", "worried"]

def URGENCY_WORDS : List String :=
  ["now", "today", "hurry", "limited", "last chance", "don\x27t miss",
   "ending soon", "only", "deadline", "before it\x27s gone", "act fast",
   "running out", "final", "expires", "countdown"]

/-- The regex `(click|tap|visit|check out|see|explore|find|go to)\b`. -/
def weakCtaPattern : List Char → List (List Char) :=
  mSeq (mAltList [mLit "click", mLit "tap", mLit "visit", mLit "check out",
                  mLit "see", mLit "explore", mLit "find", mLit "go to"])
       mWordEnd

/-- `SOCIAL_PROOF_PATTERNS`, each regex hand-compiled to a matcher. -/
def SOCIAL_PROOF_PATTERNS : List (List Char → List (List Char)) :=
  [ -- \d+[,.]?\d*\s*(customers|users|people|businesses|brands)
    mSeq (mPlusPred Char.isDigit)
      (mSeq (mOpt (mPred (fun c => c = ',' || c = '.')))
        (mSeq (mStar (mPred Char.isDigit))
          (mSeq (mStar (mPred pyIsSpace))
            (mAltList [mLit "customers", mLit "users", mLit "people",
                       mLit "businesses", mLit "brands"])))),
    mLit "trusted by",
    mLit "as seen",
    mLit "rated",
    -- \d+\s*stars?
    mSeq (mPlusPred Char.isDigit)
      (mSeq (mStar (mPred pyIsSpace))
        (mSeq (mLit "star") (mOpt (mPred (fun c => c = 's'))))),
    mLit "#1",
    -- best[\s-]selling
    mSeq (mLit "best")
      (mSeq (mPred (fun c => pyIsSpace c || c = '-')) (mLit "selling"))]

def OPTIMAL_LENGTHS : List (String × (ℕ × ℕ)) :=
  [("instagram", (100, 800)),
   ("linkedin", (150, 1000)),
   ("google_ad", (30, 210)),
   ("email_subject", (20, 60)),
   ("facebook", (40, 200)),
   ("twitter", (50, 280))]

/-- Python `max` on exact rationals (kernel-reducible). -/
def pyMax (a b : ℚ) : ℚ := if a ≤ b then b else a

/-- Python `min` on exact rationals (kernel-reducible). -/
def pyMin (a b : ℚ) : ℚ := if a ≤ b then a else b

/-! ### scoring.py sub-scores -/

/-- The strong CTA phrases occurring in the text (each phrase contributes
at most once to `sum(1 for cta in STRONG_CTAS if cta in text_lower)`). -/
def strongCtaMatches (text_lower : String) : List String :=
  STRONG_CTAS.filter (fun cta => pyIn cta text_lower)

/-- `re.search` of the weak-imperative regex. -/
def weakCtaFound (text_lower : String) : Bool :=
  mSearch weakCtaPattern text_lower.data

/-- `PersuasionScorer._cta_score`. -/
def _cta_score (text_lower : String) : ℚ :=
  let nMatches := (strongCtaMatches text_lower).length
  if nMatches ≥ 2 then 100
  else if nMatches = 1 then 80
  else if weakCtaFound text_lower then 45 else 0

/-- The characters stripped from each token by `_keyword_density_score`. -/
def TOKEN_STRIP_CHARS : List Char :=
  ['.', ',', '!', '?', ';', ':', '"', '\x27', '(', ')']

/-- The density-to-score map of `_keyword_density_score`, as a function of
the hit count and the total word count. -/
def densityValue (hits total : ℕ) : ℚ :=
  let density : ℚ := (hits : ℚ) / (total : ℚ)
  if density < 1 / 100 then density * 3000
  else if density ≤ 6 / 100 then 50 + (density - 1 / 100) * 1000
  else pyMax (100 - (density - 6 / 100) * 800) 40

/-- `PersuasionScorer._keyword_density_score`. -/
def _keyword_density_score (words : List String) (keyword_set : List String) : ℚ :=
  if words = [] then 0
  else
    let hits :=
      (words.filter (fun w => keyword_set.contains (stripChars TOKEN_STRIP_CHARS w))).length
    densityValue hits words.length

/-- `PersuasionScorer._length_score`. -/
def _length_score (char_count : ℕ) (platform : String) : ℚ :=
  let lh := (OPTIMAL_LENGTHS.lookup platform).getD (50, 500)
  if lh.1 ≤ char_count ∧ char_count ≤ lh.2 then 100
  else if char_count < lh.1 then pyMax (((char_count : ℚ) / (lh.1 : ℚ)) * 80) 0
  else pyMax (100 - (((char_count : ℚ) - (lh.2 : ℚ)) / (lh.2 : ℚ)) * 150) 10

/-- `PersuasionScorer._social_proof_score`. -/
def _social_proof_score (text_lower : String) : ℚ :=
  let nMatches :=
    (SOCIAL_PROOF_PATTERNS.filter (fun m => mSearch m text_lower.data)).length
  pyMin ((nMatches : ℚ) * 40) 100

/-- Sentence terminators of the readability regex `[.!?]+`. -/
def isSentenceTerm (c : Char) : Bool := c = '.' || c = '!' || c = '?'

/-- The stripped, nonempty sentences of `_readability_score` (splitting on
single terminators then dropping empties agrees with splitting on `[.!?]+`
runs, since the filter removes all empty pieces either way). -/
def sentenceList (text : String) : List String :=
  ((text.data.splitOnP isSentenceTerm).map (fun g => pyStrip (String.mk g))).filter
    (fun s => s ≠ "")

open scoped Classical in
/-- The mean/variance/coefficient-of-variation branch of
`_readability_score`, over the per-sentence word counts. -/
noncomputable def readabilityOfLengths (lengths : List ℕ) : ℝ :=
  let mean : ℝ := ((lengths.sum : ℕ) : ℝ) / ((lengths.length : ℕ) : ℝ)
  if mean = 0 then 30
  else
    let variance : ℝ :=
      ((lengths.map (fun l => ((l : ℝ) - mean) ^ 2)).sum) / ((lengths.length : ℕ) : ℝ)
    let cv : ℝ := Real.sqrt variance / mean
    if 3 / 10 ≤ cv ∧ cv ≤ 8 / 10 then 100
    else if cv < 3 / 10 then 50 + cv * 166
    else max (100 - (cv - 8 / 10) * 100) 30

/-- `PersuasionScorer._readability_score` (uses `math.sqrt`, hence ℝ). -/
noncomputable def _readability_score (text : String) : ℝ :=
  let sentences := sentenceList text
  if sentences.length < 2 then 50
  else readabilityOfLengths (sentences.map (fun s => (pySplit s).length))

/-- Python `round(x, 1)` on the exact value. -/
noncomputable def pyRound1 (x : ℝ) : ℝ := ((round (10 * x) : ℤ) : ℝ) / 10

namespace PersuasionScorer

/-- The weighted sum `raw` of the seven components of
`PersuasionScorer.score` (weights 0.25/0.15/0.15/0.10/0.15/0.10/0.10). -/
noncomputable def rawScore (copy_text platform : String) : ℝ :=
  let text_lower := pyLower copy_text
  let words := pySplit text_lower
  ((_cta_score text_lower : ℚ) : ℝ) * (25 / 100)
  + ((_keyword_density_score words POWER_WORDS : ℚ) : ℝ) * (15 / 100)
  + ((_keyword_density_score words EMOTIONAL_WORDS : ℚ) : ℝ) * (15 / 100)
  + ((_keyword_density_score words URGENCY_WORDS : ℚ) : ℝ) * (10 / 100)
  + ((_length_score copy_text.length platform : ℚ) : ℝ) * (15 / 100)
  + _readability_score copy_text * (10 / 100)
  + ((_social_proof_score text_lower : ℚ) : ℝ) * (10 / 100)

/-- `PersuasionScorer.score`: the zero-word guard, then the clamped and
rounded weighted sum. -/
noncomputable def score (copy_text platform : String) : ℝ :=
  if (pySplit (pyLower copy_text)).length = 0 then 0
  else pyRound1 (min (max (rawScore copy_text platform) 0) 100)

end PersuasionScorer

/-! ### prompt_engine.py -/

def PLATFORM_GUIDELINES : List (String × String) :=
  [("instagram",
    "Max 2200 characters. Lead with a hook in the first line. " ++
    "Use line breaks for readability. Include 2-3 relevant hashtag suggestions. " ++
    "Emojis are acceptable if they match the tone."),
   ("linkedin",
    "Professional register. Open with a bold statement or statistic. " ++
    "Keep paragraphs to 1-2 sentences. End with a clear CTA or question " ++
    "to drive engagement. No hashtags in the body; suggest 3 at the end."),
   ("google_ad",
    "Headline: max 30 characters. Description line 1: max 90 characters. " ++
    "Description line 2: max 90 characters. Be extremely concise. " ++
    "Include the primary keyword naturally. Strong CTA verb required."),
   ("email_subject",
    "Max 60 characters including spaces. Create curiosity or urgency. " ++
    "Avoid spam-trigger words (free, guarantee, act now). " ++
    "Personalization tokens like \x7bfirst_name\x7d are allowed."),
   ("facebook",
    "Optimal length: 40-80 characters for highest engagement. " ++
    "Conversational tone. Ask questions to boost comments. " ++
    "Include a clear CTA linking to the next step."),
   ("twitter",
    "Max 280 characters. Punchy and direct. " ++
    "One core idea per tweet. CTA or hook at the start.")]

def TONE_MODIFIERS : List (String × String) :=
  [("professional",
    "Use a polished, authoritative voice. Avoid slang. Lead with value propositions."),
   ("casual",
    "Write like a smart friend recommending something. Contractions are fine. Be warm."),
   ("urgent",
    "Create genuine urgency without being manipulative. Use time-sensitive language and scarcity cues."),
   ("witty",
    "Be clever and memorable. Use wordplay where natural. Never force humor."),
   ("inspirational",
    "Elevate the reader. Paint a vision of transformation. Use aspirational language.")]

namespace PromptEngine

/-- `PromptEngine.build_user_prompt`. -/
def build_user_prompt (product_name product_description target_audience
    tone platform : String) : String :=
  let platform_guide := (PLATFORM_GUIDELINES.lookup platform).getD
    "Follow general best practices."
  let tone_guide := (TONE_MODIFIERS.lookup tone).getD ""
  "PRODUCT: " ++ product_name ++
  "\nDESCRIPTION: " ++ product_description ++
  "\nTARGET AUDIENCE: " ++ target_audience ++
  "\nTONE: " ++ tone ++ " — " ++ tone_guide ++
  "\nPLATFORM: " ++ platform ++
  "\nPLATFORM GUIDELINES: " ++ platform_guide ++
  "\n\nGenerate 3 high-converting copy variations now."

end PromptEngine

/-! ### A model of Python JSON values (`json.loads` output) -/

inductive Json where
  | null
  | bool (b : Bool)
  | num (q : ℚ)
  | str (s : String)
  | arr (items : List Json)
  | obj (fields : List (String × Json))

/-- Python truthiness (`if not items`, `if text`). -/
def Json.truthy : Json → Bool
  | .null => false
  | .bool b => b
  | .num q => q != 0
  | .str s => s != ""
  | .arr l => !l.isEmpty
  | .obj f => !f.isEmpty

/-- `isinstance(v, list)`. -/
def Json.isArr : Json → Bool
  | .arr _ => true
  | _ => false

/-- Decimal digits of a natural number (fuelled). -/
def natStrAux : ℕ → ℕ → List Char
  | 0, _ => []
  | fuel + 1, n =>
      if n = 0 then [] else natStrAux fuel (n / 10) ++ [Char.ofNat (48 + n % 10)]

def natStr (n : ℕ) : String :=
  if n = 0 then "0" else String.mk (natStrAux n n)

def intStr (i : ℤ) : String :=
  if i < 0 then "-" ++ natStr i.natAbs else natStr i.natAbs

/-- Rendering of a Python number. Integers are exact; CPython's
shortest-round-trip float repr is abbreviated to an exact fraction
rendering (no theorem depends on its text, only on its non-emptiness). -/
def numStr (q : ℚ) : String :=
  if q.den = 1 then intStr q.num else intStr q.num ++ "/" ++ natStr q.den

mutual

/-- Python `repr` of a JSON value (string quoting/escaping abbreviated;
only used for `str()` of non-string values, where no theorem depends on
the exact text, only on its non-emptiness). -/
def pyRepr : Json → String
  | .null => "None"
  | .bool true => "True"
  | .bool false => "False"
  | .num q => numStr q
  | .str s => "\x27" ++ s ++ "\x27"
  | .arr l => "[" ++ ", ".intercalate (pyReprList l) ++ "]"
  | .obj f => "\x7b" ++ ", ".intercalate (pyReprFields f) ++ "\x7d"

def pyReprList : List Json → List String
  | [] => []
  | j :: t => pyRepr j :: pyReprList t

def pyReprFields : List (String × Json) → List String
  | [] => []
  | kv :: t => ("\x27" ++ kv.1 ++ "\x27: " ++ pyRepr kv.2) :: pyReprFields t

end

/-- Python `str()` of a JSON value. -/
def pyStr : Json → String
  | .str s => s
  | j => pyRepr j

/-- `dict` insertion as performed by the JSON object builder: a duplicate
key keeps its first position but takes the last value. -/
def objInsert : List (String × Json) → String → Json → List (String × Json)
  | [], k, v => [(k, v)]
  | (k0, v0) :: t, k, v =>
      if k0 = k then (k0, v) :: t else (k0, v0) :: objInsert t k v

/-- `dict.get(k, default)`. -/
def objGet (f : List (String × Json)) (k : String) (default : Json) : Json :=
  match f.lookup k with
  | some v => v
  | none => default

/-! ### `json.loads` (strict JSON; `NaN`/`Infinity` extensions and lone
surrogate escapes are rejected rather than parsed — no claim depends on
inputs containing them) -/

/-- Whitespace skipped by the JSON scanner (exactly space, tab, LF, CR). -/
def jsonSkipWs (cs : List Char) : List Char :=
  cs.dropWhile (fun c => c = ' ' || c = '\t' || c = '\n' || c = '\r')

def hexVal (c : Char) : Option ℕ :=
  if '0' ≤ c ∧ c ≤ '9' then some (c.toNat - 48)
  else if 'a' ≤ c ∧ c ≤ 'f' then some (c.toNat - 87)
  else if 'A' ≤ c ∧ c ≤ 'F' then some (c.toNat - 55)
  else none

def parseHex4 : List Char → Option (ℕ × List Char)
  | a :: b :: c :: d :: rest =>
    match hexVal a, hexVal b, hexVal c, hexVal d with
    | some x, some y, some z, some w => some (((x * 16 + y) * 16 + z) * 16 + w, rest)
    | _, _, _, _ => none
  | _ => none

/-- JSON string body parser (after the opening quote): returns the decoded
content and the input after the closing quote. -/
def jstrAux : ℕ → List Char → Option (List Char × List Char)
  | 0, _ => none
  | fuel + 1, cs =>
    match cs with
    | [] => none
    | '"' :: rest => some ([], rest)
    | '\\' :: esc =>
      match esc with
      | '"' :: r => (jstrAux fuel r).map (fun p => ('"' :: p.1, p.2))
      | '\\' :: r => (jstrAux fuel r).map (fun p => ('\\' :: p.1, p.2))
      | '/' :: r => (jstrAux fuel r).map (fun p => ('/' :: p.1, p.2))
      | 'b' :: r => (jstrAux fuel r).map (fun p => ('\x08' :: p.1, p.2))
      | 'f' :: r => (jstrAux fuel r).map (fun p => ('\x0c' :: p.1, p.2))
      | 'n' :: r => (jstrAux fuel r).map (fun p => ('\n' :: p.1, p.2))
      | 'r' :: r => (jstrAux fuel r).map (fun p => ('\r' :: p.1, p.2))
      | 't' :: r => (jstrAux fuel r).map (fun p => ('\t' :: p.1, p.2))
      | 'u' :: r =>
        match parseHex4 r with
        | none => none
        | some (n, r2) =>
          if 0xd800 ≤ n ∧ n ≤ 0xdbff then
            match r2 with
            | '\\' :: 'u' :: r3 =>
              match parseHex4 r3 with
              | some (m, r4) =>
                if 0xdc00 ≤ m ∧ m ≤ 0xdfff then
                  (jstrAux fuel r4).map (fun p =>
                    (Char.ofNat (0x10000 + (n - 0xd800) * 0x400 + (m - 0xdc00)) :: p.1, p.2))
                else none
              | none => none
            | _ => none
          else if 0xdc00 ≤ n ∧ n ≤ 0xdfff then none
          else (jstrAux fuel r2).map (fun p => (Char.ofNat n :: p.1, p.2))
      | _ => none
    | c :: rest =>
      if c.toNat < 0x20 then none
      else (jstrAux fuel rest).map (fun p => (c :: p.1, p.2))

def digitsToNat (ds : List Char) : ℕ :=
  ds.foldl (fun acc c => acc * 10 + (c.toNat - 48)) 0

/-- JSON number grammar `-?(0|[1-9]\d*)(\.\d+)?([eE][-+]?\d+)?`, evaluated
exactly in ℚ. -/
def parseJNumber (cs : List Char) : Option (ℚ × List Char) :=
  let signRest : Bool × List Char :=
    match cs with
    | '-' :: r => (true, r)
    | _ => (false, cs)
  let neg := signRest.1
  let cs1 := signRest.2
  let intRest : Option (ℕ × List Char) :=
    match cs1 with
    | '0' :: r => some (0, r)
    | c :: r =>
      if c.isDigit ∧ c ≠ '0' then
        let ds := r.takeWhile Char.isDigit
        some (digitsToNat (c :: ds), r.drop ds.length)
      else none
    | [] => none
  match intRest with
  | none => none
  | some (ip, cs2) =>
    let fracRest : Option (ℚ × List Char) :=
      match cs2 with
      | '.' :: r =>
        let ds := r.takeWhile Char.isDigit
        if ds = [] then none
        else some ((digitsToNat ds : ℚ) / (10 : ℚ) ^ ds.length, r.drop ds.length)
      | _ => some (0, cs2)
    match fracRest with
    | none => none
    | some (fr, cs3) =>
      let expRest : Option (ℤ × List Char) :=
        match cs3 with
        | e :: r =>
          if e = 'e' ∨ e = 'E' then
            let signR : Bool × List Char :=
              match r with
              | '-' :: r2 => (true, r2)
              | '+' :: r2 => (false, r2)
              | _ => (false, r)
            let ds := signR.2.takeWhile Char.isDigit
            if ds = [] then none
            else
              let v : ℤ := digitsToNat ds
              some (if signR.1 then -v else v, signR.2.drop ds.length)
          else some (0, cs3)
        | [] => some (0, cs3)
      match expRest with
      | none => none
      | some (ex, cs4) =>
        let mag : ℚ := ((ip : ℚ) + fr) * (10 : ℚ) ^ ex
        some (if neg then -mag else mag, cs4)

mutual

/-- One JSON value (leading whitespace allowed), returning the remainder. -/
def parseJValue : ℕ → List Char → Option (Json × List Char)
  | 0, _ => none
  | fuel + 1, cs =>
    match jsonSkipWs cs with
    | [] => none
    | '{' :: rest =>
      (match jsonSkipWs rest with
       | '}' :: r => some (Json.obj [], r)
       | other => (parseJObjItems fuel [] other).map
           (fun p => (Json.obj p.1, p.2)))
    | '[' :: rest =>
      (match jsonSkipWs rest with
       | ']' :: r => some (Json.arr [], r)
       | other => (parseJArrItems fuel [] other).map
           (fun p => (Json.arr p.1, p.2)))
    | '"' :: rest =>
      (jstrAux (rest.length + 1) rest).map
        (fun p => (Json.str (String.mk p.1), p.2))
    | 't' :: rest =>
      if isPrefixB ['r', 'u', 'e'] rest then some (Json.bool true, rest.drop 3)
      else none
    | 'f' :: rest =>
      if isPrefixB ['a', 'l', 's', 'e'] rest then some (Json.bool false, rest.drop 4)
      else none
    | 'n' :: rest =>
      if isPrefixB ['u', 'l', 'l'] rest then some (Json.null, rest.drop 3)
      else none
    | c :: rest =>
      if c = '-' ∨ c.isDigit then
        (parseJNumber (c :: rest)).map (fun p => (Json.num p.1, p.2))
      else none

/-- Comma-separated array items, positioned at the start of an item;
returns the items and the remainder after the closing bracket. -/
def parseJArrItems : ℕ → List Json → List Char → Option (List Json × List Char)
  | 0, _, _ => none
  | fuel + 1, acc, cs =>
    match parseJValue fuel cs with
    | none => none
    | some (v, rest) =>
      match jsonSkipWs rest with
      | ']' :: r => some (acc ++ [v], r)
      | ',' :: r => parseJArrItems fuel (acc ++ [v]) r
      | _ => none

/-- Comma-separated object members, positioned at the start of a key;
returns the fields and the remainder after the closing brace. -/
def parseJObjItems : ℕ → List (String × Json) → List Char →
    Option (List (String × Json) × List Char)
  | 0, _, _ => none
  | fuel + 1, acc, cs =>
    match jsonSkipWs cs with
    | '"' :: rest =>
      match jstrAux (rest.length + 1) rest with
      | none => none
      | some (key, r1) =>
        match jsonSkipWs r1 with
        | ':' :: r2 =>
          match parseJValue fuel r2 with
          | none => none
          | some (v, r3) =>
            let acc2 := objInsert acc (String.mk key) v
            match jsonSkipWs r3 with
            | '}' :: r4 => some (acc2, r4)
            | ',' :: r4 => parseJObjItems fuel acc2 r4
            | _ => none
        | _ => none
    | _ => none

end

/-- `json.loads`, as used by `_parse_variations`: `none` models a
`JSONDecodeError`. -/
def jsonDecode (raw : String) : Option Json :=
  match parseJValue (2 * raw.data.length + 2) raw.data with
  | some (j, rest) => if jsonSkipWs rest = [] then some j else none
  | none => none

/-! ### openai_client.py: `_fallback_extract` and `_parse_variations` -/

/-- Head match of the split regex `\n\d+[\.\)]\s*`: on success, the
remainder after the (greedy) match. -/
def numberedSep : List Char → Option (List Char)
  | '\n' :: rest =>
    let ds := rest.takeWhile Char.isDigit
    if ds = [] then none
    else
      match rest.drop ds.length with
      | '.' :: r => some (r.dropWhile pyIsSpace)
      | ')' :: r => some (r.dropWhile pyIsSpace)
      | _ => none
  | _ => none

/-- `re.split(r"\n\d+[\.\)]\s*", raw)`: leftmost, non-overlapping. -/
def reSplitNumberedAux : ℕ → List Char → List Char → List (List Char)
  | 0, acc, _ => [acc.reverse]
  | fuel + 1, acc, cs =>
    match numberedSep cs with
    | some rest => acc.reverse :: reSplitNumberedAux fuel [] rest
    | none =>
      match cs with
      | [] => [acc.reverse]
      | c :: t => reSplitNumberedAux fuel (c :: acc) t

def reSplitNumbered (raw : String) : List String :=
  (reSplitNumberedAux (raw.data.length + 1) [] raw.data).map String.mk

/-- The hard-coded total-failure result of `_fallback_extract` (the source
file literally contains the mojibake bytes U+00E2 U+20AC U+201D). -/
def FAILURE_PLACEHOLDER : String :=
  "Copy generation failed â€” please retry."

/-- `_fallback_extract`. -/
def _fallback_extract (raw : String) : List String :=
  let parts :=
    (((reSplitNumbered raw).filter (fun p => pyStrip p ≠ "")).map
      (fun p => stripChars ['"'] (pyStrip p)))
  if parts ≠ [] then parts.take 3
  else if pyStrip raw ≠ "" then [pyStrip raw]
  else [FAILURE_PLACEHOLDER]

/-- `item.get("copy", item.get("text", item.get("content", "")))`. -/
def extractText (f : List (String × Json)) : Json :=
  objGet f "copy" (objGet f "text" (objGet f "content" (Json.str "")))

/-- The `for item in items` body: plain strings are kept as they are,
keyed structures contribute `str(text)` when `text` is truthy, anything
else is skipped. -/
def processItems : List Json → List String
  | [] => []
  | .str s :: t => s :: processItems t
  | .obj f :: t =>
    let text := extractText f
    if text.truthy then pyStr text :: processItems t else processItems t
  | _ :: t => processItems t

/-- The `items` value chosen on the keyed-structure path: the "variations"
key, else the "copies" key, else `[]`; when that is falsy, the first
list-valued entry of the dict, when one exists. -/
def dictItemsValue (f : List (String × Json)) : Json :=
  let items := objGet f "variations" (objGet f "copies" (Json.arr []))
  if items.truthy then items
  else
    match (f.map Prod.snd).find? Json.isArr with
    | some v => v
    | none => items

/-- Python iteration over the `items` value: lists yield their elements,
strings their characters (as 1-character strings), dicts their keys;
anything else raises `TypeError` (modelled as `none`). -/
def iterElems : Json → Option (List Json)
  | .arr l => some l
  | .str s => some (s.data.map (fun c => Json.str (String.mk [c])))
  | .obj g => some (g.map (fun kv => Json.str kv.1))
  | _ => none

/-- `if not copies: return _fallback_extract(raw)` / `return copies[:3]`. -/
def finishCopies (raw : String) (copies : List String) : List String :=
  if copies = [] then _fallback_extract raw else copies.take 3

/-- The element list iterated on the structured path (`none` when the
input is not decoded to a list or keyed structure, or when the chosen
`items` value is not iterable). -/
def selectedElems (raw : String) : Option (List Json) :=
  match jsonDecode raw with
  | some (Json.arr l) => some l
  | some (Json.obj f) => iterElems (dictItemsValue f)
  | _ => none

/-- `_parse_variations`; `none` models the uncaught `TypeError` raised when
a keyed structure carries a non-iterable truthy "variations"/"copies"
value (e.g. `{"variations": 5}`). -/
def _parse_variations (raw : String) : Option (List String) :=
  match jsonDecode raw with
  | none => some (_fallback_extract raw)
  | some (Json.arr l) => some (finishCopies raw (processItems l))
  | some (Json.obj f) =>
    match iterElems (dictItemsValue f) with
    | none => none
    | some elems => some (finishCopies raw (processItems elems))
  | some _ => some (_fallback_extract raw)

/-! ### Helper lemmas -/

lemma pyIsSpace_cases (c : Char) (h : pyIsSpace c = true) :
    c = ' ' ∨ c = '\t' ∨ c = '\n' ∨ c = '\r' ∨ c = '\x0b' ∨ c = '\x0c' := by
  simp only [pyIsSpace, Bool.or_eq_true, decide_eq_true_eq] at h
  tauto

lemma toLower_of_space (c : Char) (h : pyIsSpace c = true) : c.toLower = c := by
  rcases pyIsSpace_cases c h with h' | h' | h' | h' | h' | h' <;> subst h' <;> decide

lemma isDigit_false_of_space (c : Char) (h : pyIsSpace c = true) :
    c.isDigit = false := by
  rcases pyIsSpace_cases c h with h' | h' | h' | h' | h' | h' <;> subst h' <;> decide

lemma pySplitAux_nil_of_all_space :
    ∀ cs : List Char, (∀ c ∈ cs, pyIsSpace c = true) → pySplitAux [] cs = [] := by
  intro cs
  induction cs with
  | nil => intro _; rfl
  | cons c t ih =>
    intro h
    have hc : pyIsSpace c = true := h c (List.mem_cons_self c t)
    simp only [pySplitAux, hc, if_true]
    exact ih (fun x hx => h x (List.mem_cons_of_mem c hx))

lemma pySplitAux_ne_nil_of_acc_ne :
    ∀ (cs acc : List Char), acc ≠ [] → pySplitAux acc cs ≠ [] := by
  intro cs
  induction cs with
  | nil =>
    intro acc hacc
    simp only [pySplitAux, hacc, if_false]
    exact List.cons_ne_nil _ _
  | cons c t ih =>
    intro acc hacc
    by_cases hc : pyIsSpace c = true
    · simp only [pySplitAux, hc, if_true, hacc, if_false]
      exact List.cons_ne_nil _ _
    · simp only [pySplitAux, hc]
      exact ih (c :: acc) (List.cons_ne_nil _ _)

lemma all_space_of_pySplitAux_nil :
    ∀ cs : List Char, pySplitAux [] cs = [] → ∀ c ∈ cs, pyIsSpace c = true := by
  intro cs
  induction cs with
  | nil => intro _ c hc; cases hc
  | cons c t ih =>
    intro h x hx
    by_cases hc : pyIsSpace c = true
    · simp only [pySplitAux, hc, if_true] at h
      rcases List.mem_cons.mp hx with rfl | hx2
      · exact hc
      · exact ih h x hx2
    · simp only [pySplitAux, hc] at h
      exact absurd h (pySplitAux_ne_nil_of_acc_ne t [c] (List.cons_ne_nil _ _))

lemma pySplit_pyLower_nil (s : String) (h : pySplit s = []) :
    pySplit (pyLower s) = [] := by
  have hall : ∀ c ∈ s.data, pyIsSpace c = true := all_space_of_pySplitAux_nil s.data h
  apply pySplitAux_nil_of_all_space
  intro c hc
  rcases List.mem_map.mp hc with ⟨c0, hc0, rfl⟩
  rw [toLower_of_space c0 (hall c0 hc0)]
  exact hall c0 hc0

/-! ### C7 -/

/-- C7: for every platform, `PersuasionScorer.score` applied to a text with
zero whitespace-separated words returns exactly 0.0 (the zero-word guard
fires before any sub-score is computed). -/
theorem score_of_no_words (copy_text platform : String)
    (h : (pySplit copy_text).length = 0) :
    PersuasionScorer.score copy_text platform = 0 := by
  have h0 : pySplit (pyLower copy_text) = [] :=
    pySplit_pyLower_nil copy_text (List.length_eq_zero.mp h)
  simp [PersuasionScorer.score, h0]

/-- Witness for C7 at the empty string and platform "twitter". -/
theorem score_of_no_words_witness :
    (pySplit "").length = 0 ∧ PersuasionScorer.score "" "twitter" = 0 :=
  ⟨by decide, score_of_no_words "" "twitter" (by decide)⟩

/-! ### C5 -/

/-- C5: for a fixed total word count `total ≥ 1`, the density sub-score of
`_keyword_density_score`, as a function of the hit count, is monotonically
non-decreasing while the density stays at or below the 6% threshold, and
monotonically non-increasing once the density is beyond it. -/
theorem densityValue_monotone (total h1 h2 : ℕ) (htot : 1 ≤ total)
    (h12 : h1 ≤ h2) :
    ((h2 : ℚ) / (total : ℚ) ≤ 6 / 100 →
      densityValue h1 total ≤ densityValue h2 total) ∧
    (6 / 100 < (h1 : ℚ) / (total : ℚ) →
      densityValue h2 total ≤ densityValue h1 total) := by
  have htq : (0 : ℚ) < (total : ℚ) := by exact_mod_cast htot
  have hd : (h1 : ℚ) / (total : ℚ) ≤ (h2 : ℚ) / (total : ℚ) := by
    gcongr
  have hd1 : (0 : ℚ) ≤ (h1 : ℚ) / (total : ℚ) :=
    div_nonneg (by positivity) (le_of_lt htq)
  constructor
  · intro h6
    simp only [densityValue]
    split_ifs <;> linarith
  · intro h6
    simp only [densityValue]
    split_ifs <;> first
      | linarith
      | (simp only [pyMax]; split_ifs <;> linarith)

/-- Witness for C5 at total=100: hits 2 → 5 below threshold, 10 → 20 above. -/
theorem densityValue_monotone_witness :
    densityValue 2 100 ≤ densityValue 5 100 ∧
    densityValue 20 100 ≤ densityValue 10 100 :=
  ⟨(densityValue_monotone 100 2 5 (by norm_num) (by norm_num)).1 (by norm_num),
   (densityValue_monotone 100 10 20 (by norm_num) (by norm_num)).2 (by norm_num)⟩

/-! ### C3 -/

lemma pyRound1_clamp (x : ℝ) :
    0 ≤ pyRound1 (min (max x 0) 100) ∧ pyRound1 (min (max x 0) 100) ≤ 100 ∧
    ∃ k : ℤ, pyRound1 (min (max x 0) 100) = (k : ℝ) / 10 := by
  set c : ℝ := min (max x 0) 100 with hc
  have hc0 : 0 ≤ c := le_min (le_max_right x 0) (by norm_num)
  have hc1 : c ≤ 100 := min_le_right _ _
  have hr : round (10 * c) = Int.floor (10 * c + 1 / 2) := round_eq _
  have hlow : (0 : ℤ) ≤ round (10 * c) := by
    rw [hr]
    exact Int.le_floor.mpr (by push_cast; linarith)
  have hhigh : round (10 * c) ≤ 1000 := by
    rw [hr]
    have : (10 : ℝ) * c + 1 / 2 < 1001 := by linarith
    exact Int.le_of_lt_add_one (Int.floor_lt.mpr (by push_cast; linarith))
  refine ⟨?_, ?_, round (10 * c), rfl⟩
  · unfold pyRound1
    have : (0 : ℝ) ≤ ((round (10 * c) : ℤ) : ℝ) := by exact_mod_cast hlow
    linarith
  · unfold pyRound1
    have : ((round (10 * c) : ℤ) : ℝ) ≤ 1000 := by exact_mod_cast hhigh
    linarith

/-- C3: for every input text and platform string, `PersuasionScorer.score`
returns a value within [0, 100] that is an integer multiple of 1/10 (one
decimal place). -/
theorem score_bounded_one_decimal (copy_text platform : String) :
    0 ≤ PersuasionScorer.score copy_text platform ∧
    PersuasionScorer.score copy_text platform ≤ 100 ∧
    ∃ k : ℤ, PersuasionScorer.score copy_text platform = (k : ℝ) / 10 := by
  by_cases h : (pySplit (pyLower copy_text)).length = 0
  · have e : PersuasionScorer.score copy_text platform = 0 := by
      simp [PersuasionScorer.score, h]
    rw [e]
    exact ⟨le_rfl, by norm_num, 0, by norm_num⟩
  · have e : PersuasionScorer.score copy_text platform =
        pyRound1 (min (max (PersuasionScorer.rawScore copy_text platform) 0) 100) := by
      simp [PersuasionScorer.score, h]
    rw [e]
    exact pyRound1_clamp _

/-! ### C8 -/

/-- Character count within the platform's optimal range, with the unknown-
platform default (50, 500). -/
def inOptimalRange (n : ℕ) (platform : String) : Bool :=
  let lh := (OPTIMAL_LENGTHS.lookup platform).getD (50, 500)
  decide (lh.1 ≤ n ∧ n ≤ lh.2)

lemma length_score_of_inRange (n : ℕ) (p : String)
    (h : inOptimalRange n p = true) : _length_score n p = 100 := by
  simp only [inOptimalRange, decide_eq_true_eq] at h
  simp only [_length_score]
  rw [if_pos h]

/-- A text whose character length lies within the optimal range of every
platform of `OPTIMAL_LENGTHS` (the premise of the platform-invariance
claim). -/
def textLenInAllRanges (t : String) : Bool :=
  (OPTIMAL_LENGTHS.map Prod.fst).all (fun p => inOptimalRange t.length p)

def c8PremiseSatisfiable : Prop := ∃ t : String, textLenInAllRanges t = true

/-- C8 counterexample side: the claim's premise is unsatisfiable — no
character length is simultaneously ≥ 150 (linkedin) and ≤ 60
(email_subject), so no text lies within every platform's optimal range. -/
theorem no_text_length_fits_every_platform : ¬ c8PremiseSatisfiable := by
  rintro ⟨t, h⟩
  have hall := List.all_eq_true.mp h
  have h1 := hall "linkedin" (by decide)
  have h2 := hall "email_subject" (by decide)
  have e1 : (OPTIMAL_LENGTHS.lookup "linkedin").getD (50, 500) = (150, 1000) := by rfl
  have e2 : (OPTIMAL_LENGTHS.lookup "email_subject").getD (50, 500) = (20, 60) := by rfl
  simp only [inOptimalRange, e1, e2, decide_eq_true_eq] at h1 h2
  omega

/-- C8 amended: whenever the text's character length lies within the
optimal ranges of both platforms being compared, the score is invariant
under swapping those platforms (only the length component reads the
platform). -/
theorem score_platform_invariant (t p1 p2 : String)
    (hp1 : inOptimalRange t.length p1 = true)
    (hp2 : inOptimalRange t.length p2 = true) :
    PersuasionScorer.score t p1 = PersuasionScorer.score t p2 := by
  have hr : PersuasionScorer.rawScore t p1 = PersuasionScorer.rawScore t p2 := by
    simp only [PersuasionScorer.rawScore]
    rw [length_score_of_inRange _ _ hp1, length_score_of_inRange _ _ hp2]
  simp only [PersuasionScorer.score, hr]

set_option maxRecDepth 10000

/-- Witness for C8 (amended) on a 200-character text, instagram vs
linkedin. -/
theorem score_platform_invariant_witness :
    inOptimalRange (String.mk (List.replicate 200 'a')).length "instagram" = true ∧
    inOptimalRange (String.mk (List.replicate 200 'a')).length "linkedin" = true ∧
    PersuasionScorer.score (String.mk (List.replicate 200 'a')) "instagram" =
      PersuasionScorer.score (String.mk (List.replicate 200 'a')) "linkedin" :=
  ⟨by decide, by decide, score_platform_invariant _ _ _ (by decide) (by decide)⟩

/-! ### C6 -/

/-- C6 counterexample: with an unknown platform key, the guideline string
actually embedded in the prompt is "Follow general best practices."
(capital F, trailing full stop); the lowercase, period-free string named by
the claim does not occur in the prompt. -/
theorem build_user_prompt_fallback_counterexample :
    pyIn "Follow general best practices."
      (PromptEngine.build_user_prompt "N" "D" "A" "mythic" "smoke_signal") = true ∧
    pyIn "follow general best practices"
      (PromptEngine.build_user_prompt "N" "D" "A" "mythic" "smoke_signal") = false := by
  constructor <;> decide

/-- C6 amended: for every tone string and every platform string — known
keys, unknown keys and mixed pairs alike — `build_user_prompt` is total
and assembles the output in the fixed field order from the looked-up
guideline and modifier; an unknown platform key falls back to "Follow
general best practices." and an unknown tone key falls back to the empty
string. -/
theorem build_user_prompt_fallback_behavior (pn pd ta tone platform : String) :
    PromptEngine.build_user_prompt pn pd ta tone platform =
      "PRODUCT: " ++ pn ++ "\nDESCRIPTION: " ++ pd ++
      "\nTARGET AUDIENCE: " ++ ta ++ "\nTONE: " ++ tone ++ " — " ++
      (TONE_MODIFIERS.lookup tone).getD "" ++
      "\nPLATFORM: " ++ platform ++
      "\nPLATFORM GUIDELINES: " ++
      (PLATFORM_GUIDELINES.lookup platform).getD "Follow general best practices." ++
      "\n\nGenerate 3 high-converting copy variations now." ∧
    (PLATFORM_GUIDELINES.lookup platform = none →
      (PLATFORM_GUIDELINES.lookup platform).getD "Follow general best practices." =
        "Follow general best practices.") ∧
    (TONE_MODIFIERS.lookup tone = none →
      (TONE_MODIFIERS.lookup tone).getD "" = "") := by
  refine ⟨rfl, fun hp => ?_, fun ht => ?_⟩
  · rw [hp]; rfl
  · rw [ht]; rfl

/-- Witness for C6 (amended) at concrete unknown keys. -/
theorem build_user_prompt_fallback_behavior_witness :
    PromptEngine.build_user_prompt "N" "D" "A" "sardonic" "smoke_signal" =
      "PRODUCT: " ++ "N" ++ "\nDESCRIPTION: " ++ "D" ++
      "\nTARGET AUDIENCE: " ++ "A" ++ "\nTONE: " ++ "sardonic" ++ " — " ++
      (TONE_MODIFIERS.lookup "sardonic").getD "" ++
      "\nPLATFORM: " ++ "smoke_signal" ++
      "\nPLATFORM GUIDELINES: " ++
      (PLATFORM_GUIDELINES.lookup "smoke_signal").getD "Follow general best practices." ++
      "\n\nGenerate 3 high-converting copy variations now." ∧
    (PLATFORM_GUIDELINES.lookup "smoke_signal").getD "Follow general best practices." =
      "Follow general best practices." ∧
    (TONE_MODIFIERS.lookup "sardonic").getD "" = "" :=
  ⟨(build_user_prompt_fallback_behavior "N" "D" "A" "sardonic" "smoke_signal").1,
   (build_user_prompt_fallback_behavior "N" "D" "A" "sardonic" "smoke_signal").2.1
     (by decide),
   (build_user_prompt_fallback_behavior "N" "D" "A" "sardonic" "smoke_signal").2.2
     (by decide)⟩

/-! ### C9 -/

/-- C9 counterexample: the CTA sub-score does not depend only on the set of
strong phrases present — "hello" and "click here" both match no strong
phrase, yet score 0 and 45 (the weak-imperative regex also matters). -/
theorem cta_score_not_a_function_of_strong_set :
    strongCtaMatches "hello" = strongCtaMatches "click here" ∧
    _cta_score "hello" ≠ _cta_score "click here" := by
  constructor <;> decide

/-- C9 amended: the CTA sub-score depends only on the set of strong phrases
occurring as substrings together with the presence of a weak imperative
verb — in particular repeated occurrences of the same phrase count as a
single match — and its value is always one of 0, 45, 80 and 100. -/
theorem cta_score_set_function_and_range :
    (∀ t1 t2 : String, strongCtaMatches t1 = strongCtaMatches t2 →
      weakCtaFound t1 = weakCtaFound t2 → _cta_score t1 = _cta_score t2) ∧
    (∀ t : String,
      _cta_score t = 0 ∨ _cta_score t = 45 ∨ _cta_score t = 80 ∨ _cta_score t = 100) := by
  constructor
  · intro t1 t2 hs hw
    simp only [_cta_score, hs, hw]
  · intro t
    simp only [_cta_score]
    split_ifs <;> norm_num

/-- Witness for C9 (amended): "buy now" twice scores like "buy now" once
(80), and a fresh text takes one of the four values. -/
theorem cta_score_set_function_witness :
    _cta_score "buy now pals" = _cta_score "buy now! buy now!" ∧
    (_cta_score "grab a deal" = 0 ∨ _cta_score "grab a deal" = 45 ∨
      _cta_score "grab a deal" = 80 ∨ _cta_score "grab a deal" = 100) :=
  ⟨cta_score_set_function_and_range.1 "buy now pals" "buy now! buy now!"
     (by decide) (by decide),
   cta_score_set_function_and_range.2 "grab a deal"⟩

/-! ### C4 -/

lemma fallback_extract_length_le (raw : String) :
    (_fallback_extract raw).length ≤ 3 := by
  simp only [_fallback_extract]
  split_ifs
  · rw [List.length_take]; exact min_le_left _ _
  · simp
  · simp

lemma finishCopies_length_le (raw : String) (copies : List String) :
    (finishCopies raw copies).length ≤ 3 := by
  simp only [finishCopies]
  split_ifs
  · exact fallback_extract_length_le raw
  · rw [List.length_take]; exact min_le_left _ _

/-- C4: whenever `_parse_variations` returns a sequence — on the structured
JSON-list path, the keyed-structure path (including the value scan), the
numbered-line fallback, and the raw-passthrough — that sequence has at most
3 entries. -/
theorem parse_variations_at_most_three (raw : String) (l : List String)
    (h : _parse_variations raw = some l) : l.length ≤ 3 := by
  rcases hj : jsonDecode raw with _ | j
  · simp only [_parse_variations, hj] at h
    obtain rfl := (Option.some.inj h).symm
    exact fallback_extract_length_le raw
  · cases j with
    | null =>
      simp only [_parse_variations, hj] at h
      obtain rfl := (Option.some.inj h).symm
      exact fallback_extract_length_le raw
    | bool b =>
      simp only [_parse_variations, hj] at h
      obtain rfl := (Option.some.inj h).symm
      exact fallback_extract_length_le raw
    | num q =>
      simp only [_parse_variations, hj] at h
      obtain rfl := (Option.some.inj h).symm
      exact fallback_extract_length_le raw
    | str s =>
      simp only [_parse_variations, hj] at h
      obtain rfl := (Option.some.inj h).symm
      exact fallback_extract_length_le raw
    | arr items =>
      simp only [_parse_variations, hj] at h
      obtain rfl := (Option.some.inj h).symm
      exact finishCopies_length_le raw _
    | obj f =>
      simp only [_parse_variations, hj] at h
      rcases hi : iterElems (dictItemsValue f) with _ | elems
      · rw [hi] at h; cases h
      · rw [hi] at h
        obtain rfl := (Option.some.inj h).symm
        exact finishCopies_length_le raw _

/-- Witness for C4 on a four-element JSON list, truncated to three. -/
theorem parse_variations_at_most_three_witness :
    _parse_variations "[\"a\",\"b\",\"c\",\"d\"]" = some ["a", "b", "c"] ∧
    (["a", "b", "c"] : List String).length ≤ 3 :=
  ⟨by decide, parse_variations_at_most_three "[\"a\",\"b\",\"c\",\"d\"]"
     ["a", "b", "c"] (by decide)⟩

/-! ### C10 -/

lemma takeWhile_digit_nil_of_space (t : List Char)
    (h : ∀ c ∈ t, pyIsSpace c = true) : t.takeWhile Char.isDigit = [] := by
  cases t with
  | nil => rfl
  | cons c t' =>
    have := isDigit_false_of_space c (h c (List.mem_cons_self c t'))
    simp [List.takeWhile_cons, this]

lemma numberedSep_none_of_space (c : Char) (t : List Char)
    (hc : pyIsSpace c = true) (ht : ∀ x ∈ t, pyIsSpace x = true) :
    numberedSep (c :: t) = none := by
  rcases pyIsSpace_cases c hc with rfl | rfl | rfl | rfl | rfl | rfl
  · rfl
  · rfl
  · simp [numberedSep, takeWhile_digit_nil_of_space t ht]
  · rfl
  · rfl
  · rfl

lemma reSplitAux_all_space :
    ∀ (cs acc : List Char) (fuel : ℕ), cs.length < fuel →
      (∀ c ∈ cs, pyIsSpace c = true) →
      reSplitNumberedAux fuel acc cs = [acc.reverse ++ cs] := by
  intro cs
  induction cs with
  | nil =>
    intro acc fuel hf _
    cases fuel with
    | zero => omega
    | succ f => simp [reSplitNumberedAux, numberedSep]
  | cons c t ih =>
    intro acc fuel hf hall
    cases fuel with
    | zero => simp at hf
    | succ f =>
      have hsep : numberedSep (c :: t) = none :=
        numberedSep_none_of_space c t (hall c (List.mem_cons_self c t))
          (fun x hx => hall x (List.mem_cons_of_mem c hx))
      simp only [reSplitNumberedAux, hsep]
      rw [ih (c :: acc) f (by simp at hf; omega)
        (fun x hx => hall x (List.mem_cons_of_mem c hx))]
      simp

lemma reSplitNumbered_all_space (raw : String)
    (h : ∀ c ∈ raw.data, pyIsSpace c = true) : reSplitNumbered raw = [raw] := by
  unfold reSplitNumbered
  rw [reSplitAux_all_space raw.data [] (raw.data.length + 1) (by omega) h]
  simp

lemma skipWs_all_space (cs : List Char) (h : ∀ c ∈ cs, pyIsSpace c = true) :
    jsonSkipWs cs = [] ∨ ∃ c rest, jsonSkipWs cs = c :: rest ∧
      (c = '\x0b' ∨ c = '\x0c') ∧ ∀ x ∈ rest, pyIsSpace x = true := by
  induction cs with
  | nil => left; rfl
  | cons c t ih =>
    have hc : pyIsSpace c = true := h c (List.mem_cons_self c t)
    have ht : ∀ x ∈ t, pyIsSpace x = true :=
      fun x hx => h x (List.mem_cons_of_mem c hx)
    by_cases hw : (c = ' ' || c = '\t' || c = '\n' || c = '\r') = true
    · have : jsonSkipWs (c :: t) = jsonSkipWs t := by
        simp only [jsonSkipWs, List.dropWhile_cons, hw, if_true]
      rw [this]
      exact ih ht
    · have : jsonSkipWs (c :: t) = c :: t := by
        simp [jsonSkipWs, List.dropWhile_cons, hw]
      rw [this]
      right
      refine ⟨c, t, rfl, ?_, ht⟩
      rcases pyIsSpace_cases c hc with rfl | rfl | rfl | rfl | rfl | rfl
      · exact absurd (by decide) hw
      · exact absurd (by decide) hw
      · exact absurd (by decide) hw
      · exact absurd (by decide) hw
      · exact Or.inl rfl
      · exact Or.inr rfl

lemma parseJValue_all_space :
    ∀ (fuel : ℕ) (cs : List Char), (∀ c ∈ cs, pyIsSpace c = true) →
      parseJValue fuel cs = none := by
  intro fuel cs h
  cases fuel with
  | zero => rfl
  | succ f =>
    rcases skipWs_all_space cs h with hnil | ⟨c, rest, heq, hv, _⟩
    · simp [parseJValue, hnil]
    · rcases hv with rfl | rfl
      · simp [parseJValue, heq]
      · simp [parseJValue, heq]

lemma jsonDecode_none_of_all_space (raw : String)
    (h : ∀ c ∈ raw.data, pyIsSpace c = true) : jsonDecode raw = none := by
  unfold jsonDecode
  rw [parseJValue_all_space _ _ h]

lemma all_space_of_pyStrip_empty (s : String) (h : pyStrip s = "") :
    ∀ c ∈ s.data, pyIsSpace c = true := by
  have hl : stripBoth pyIsSpace s.data = [] := by
    have := congrArg String.data h
    simpa using this
  unfold stripBoth at hl
  rw [List.reverse_eq_nil_iff] at hl
  have h2 : ∀ c ∈ (s.data.dropWhile pyIsSpace).reverse, pyIsSpace c = true :=
    List.dropWhile_eq_nil_iff.mp hl
  have h3 : ∀ c ∈ s.data.dropWhile pyIsSpace, pyIsSpace c = true :=
    fun c hc => h2 c (List.mem_reverse.mpr hc)
  intro c hc
  rw [← List.takeWhile_append_dropWhile (p := pyIsSpace) (l := s.data)] at hc
  rcases List.mem_append.mp hc with hc' | hc'
  · exact List.mem_takeWhile_imp hc'
  · exact h3 c hc'

lemma fallback_extract_ne_nil (raw : String) : _fallback_extract raw ≠ [] := by
  simp only [_fallback_extract]
  split_ifs with h1 h2
  · rcases List.exists_cons_of_ne_nil h1 with ⟨p, t, he⟩
    rw [he]
    simp
  · simp
  · simp

lemma finishCopies_ne_nil (raw : String) (copies : List String) :
    finishCopies raw copies ≠ [] := by
  simp only [finishCopies]
  split_ifs with h1
  · exact fallback_extract_ne_nil raw
  · rcases List.exists_cons_of_ne_nil h1 with ⟨p, t, he⟩
    rw [he]
    simp

lemma parse_variations_all_space (raw : String) (h : pyStrip raw = "") :
    _parse_variations raw = some [FAILURE_PLACEHOLDER] := by
  have hall : ∀ c ∈ raw.data, pyIsSpace c = true := all_space_of_pyStrip_empty raw h
  have hdec := jsonDecode_none_of_all_space raw hall
  simp only [_parse_variations, hdec]
  simp only [_fallback_extract, reSplitNumbered_all_space raw hall]
  simp [h]

/-- C10: whenever `_parse_variations` returns a sequence it has at least
one element, and on every input whose characters are all whitespace (the
empty string included) it returns exactly the one-element sequence holding
the fixed failure placeholder string. -/
theorem parse_variations_never_empty :
    (∀ raw l, _parse_variations raw = some l → l ≠ []) ∧
    (∀ raw, pyStrip raw = "" → _parse_variations raw = some [FAILURE_PLACEHOLDER]) := by
  constructor
  · intro raw l h
    rcases hj : jsonDecode raw with _ | j
    · simp only [_parse_variations, hj] at h
      obtain rfl := (Option.some.inj h).symm
      exact fallback_extract_ne_nil raw
    · cases j with
      | null =>
        simp only [_parse_variations, hj] at h
        obtain rfl := (Option.some.inj h).symm
        exact fallback_extract_ne_nil raw
      | bool b =>
        simp only [_parse_variations, hj] at h
        obtain rfl := (Option.some.inj h).symm
        exact fallback_extract_ne_nil raw
      | num q =>
        simp only [_parse_variations, hj] at h
        obtain rfl := (Option.some.inj h).symm
        exact fallback_extract_ne_nil raw
      | str s =>
        simp only [_parse_variations, hj] at h
        obtain rfl := (Option.some.inj h).symm
        exact fallback_extract_ne_nil raw
      | arr items =>
        simp only [_parse_variations, hj] at h
        obtain rfl := (Option.some.inj h).symm
        exact finishCopies_ne_nil raw _
      | obj f =>
        simp only [_parse_variations, hj] at h
        rcases hi : iterElems (dictItemsValue f) with _ | elems
        · rw [hi] at h; cases h
        · rw [hi] at h
          obtain rfl := (Option.some.inj h).symm
          exact finishCopies_ne_nil raw _
  · exact parse_variations_all_space

/-- Witness for C10: a non-JSON input yields a nonempty result, and a
whitespace-only input yields the placeholder. -/
theorem parse_variations_never_empty_witness :
    _parse_variations "hi" = some ["hi"] ∧ (["hi"] : List String) ≠ [] ∧
    _parse_variations " \t " = some [FAILURE_PLACEHOLDER] :=
  ⟨by decide, parse_variations_never_empty.1 "hi" ["hi"] (by decide),
   parse_variations_never_empty.2 " \t " (by decide)⟩

/-! ### C2 -/

/-- A JSON value that is the empty string. -/
def isEmptyStrItem : Json → Bool
  | .str s => s == ""
  | _ => false

/-- The iterated element list (when one exists) holds no empty-string
item. -/
def noEmptyStrElem : Option (List Json) → Bool
  | none => true
  | some l => l.all (fun j => !isEmptyStrItem j)

/-- No numbered segment of the fallback split consists, after whitespace
stripping, of quote characters alone. -/
def segmentsQuoteSafe (raw : String) : Bool :=
  (reSplitNumbered raw).all
    (fun p => pyStrip p == "" || stripChars ['"'] (pyStrip p) != "")

lemma mk_ne_empty (l : List Char) (h : l ≠ []) : String.mk l ≠ "" := by
  intro hc
  exact h (by simpa using congrArg String.data hc)

lemma natStr_ne_empty (n : ℕ) : natStr n ≠ "" := by
  unfold natStr
  split_ifs with h
  · simp
  · cases n with
    | zero => exact absurd rfl h
    | succ m =>
      apply mk_ne_empty
      simp [natStrAux, h]

lemma intStr_ne_empty (i : ℤ) : intStr i ≠ "" := by
  unfold intStr
  split_ifs with h
  · intro hc
    have := congrArg String.data hc
    rw [String.data_append] at this
    simp at this
  · exact natStr_ne_empty _

lemma numStr_ne_empty (q : ℚ) : numStr q ≠ "" := by
  unfold numStr
  split_ifs with h
  · exact intStr_ne_empty _
  · intro hc
    have := congrArg String.data hc
    rw [String.data_append, String.data_append] at this
    rcases List.append_eq_nil.mp this with ⟨h1, _⟩
    rcases List.append_eq_nil.mp h1 with ⟨_, h3⟩
    simp at h3

lemma pyStr_ne_empty_of_truthy (j : Json) (h : j.truthy = true) :
    pyStr j ≠ "" := by
  cases j with
  | null => simp [Json.truthy] at h
  | bool b =>
    cases b
    · simp [Json.truthy] at h
    · intro hc; exact absurd (congrArg String.data hc) (by simp [pyStr, pyRepr])
  | num q => exact numStr_ne_empty q
  | str s => simpa [Json.truthy] using h
  | arr l =>
    intro hc
    have := congrArg String.data hc
    rw [show pyStr (Json.arr l) = "[" ++ (", ".intercalate (pyReprList l) ++ "]") from by
      simp [pyStr, pyRepr, String.append_assoc]] at this
    rw [String.data_append] at this
    simp at this
  | obj f =>
    intro hc
    have := congrArg String.data hc
    rw [show pyStr (Json.obj f) = "\x7b" ++ (", ".intercalate (pyReprFields f) ++ "\x7d") from by
      simp [pyStr, pyRepr, String.append_assoc]] at this
    rw [String.data_append] at this
    simp at this

lemma processItems_ne_empty (elems : List Json)
    (h : elems.all (fun j => !isEmptyStrItem j) = true) :
    ∀ s ∈ processItems elems, s ≠ "" := by
  induction elems with
  | nil => intro s hs; simp [processItems] at hs
  | cons j t ih =>
    rw [List.all_cons, Bool.and_eq_true] at h
    obtain ⟨hj, ht⟩ := h
    intro s hs
    cases j with
    | str s' =>
      simp only [processItems] at hs
      rcases List.mem_cons.mp hs with rfl | hs'
      · simpa [isEmptyStrItem] using hj
      · exact ih ht s hs'
    | obj f =>
      simp only [processItems] at hs
      split_ifs at hs with htr
      · rcases List.mem_cons.mp hs with rfl | hs'
        · exact pyStr_ne_empty_of_truthy _ htr
        · exact ih ht s hs'
      · exact ih ht s hs
    | null => simp only [processItems] at hs; exact ih ht s hs
    | bool b => simp only [processItems] at hs; exact ih ht s hs
    | num q => simp only [processItems] at hs; exact ih ht s hs
    | arr l' => simp only [processItems] at hs; exact ih ht s hs

lemma fallback_extract_elements_ne_empty (raw : String)
    (hseg : segmentsQuoteSafe raw = true) :
    ∀ s ∈ _fallback_extract raw, s ≠ "" := by
  intro s hs
  simp only [_fallback_extract] at hs
  split_ifs at hs with h1 h2
  · have hs' := List.take_subset 3 _ hs
    rcases List.mem_map.mp hs' with ⟨p, hp, rfl⟩
    have hpf := List.of_mem_filter hp
    have hpm := List.mem_of_mem_filter hp
    have hq := List.all_eq_true.mp hseg p hpm
    rw [Bool.or_eq_true] at hq
    rcases hq with hq | hq
    · rw [beq_iff_eq] at hq
      rw [decide_eq_true_eq] at hpf
      exact absurd hq hpf
    · rwa [bne_iff_ne] at hq
  · obtain rfl := List.mem_singleton.mp hs
    exact h2
  · obtain rfl := List.mem_singleton.mp hs
    decide

lemma finishCopies_elements_ne_empty (raw : String) (copies : List String)
    (hc : ∀ s ∈ copies, s ≠ "") (hseg : segmentsQuoteSafe raw = true) :
    ∀ s ∈ finishCopies raw copies, s ≠ "" := by
  intro s hs
  simp only [finishCopies] at hs
  split_ifs at hs with h1
  · exact fallback_extract_elements_ne_empty raw hseg s hs
  · exact hc s (List.take_subset _ _ hs)

/-- C2 counterexample: on the JSON list `[""]` the parser returns the
one-element sequence holding the empty string — string items are passed
through unchecked, so not every returned element is non-empty. -/
theorem parse_variations_empty_element :
    _parse_variations "[\"\"]" = some [""] ∧
    (([""] : List String).all (fun s => s != "")) = false := by
  constructor <;> decide

/-- C2 amended: every element of a returned sequence is non-empty provided
the decoded item list carries no empty-string item and no numbered segment
of the fallback split strips to quote characters alone; the keyed-item
extraction, raw-passthrough and placeholder paths never contribute an
empty element. -/
theorem parse_variations_elements_nonempty (raw : String) (l : List String)
    (hp : _parse_variations raw = some l)
    (hsel : noEmptyStrElem (selectedElems raw) = true)
    (hseg : segmentsQuoteSafe raw = true) :
    ∀ s ∈ l, s ≠ "" := by
  rcases hj : jsonDecode raw with _ | j
  · simp only [_parse_variations, hj] at hp
    obtain rfl := (Option.some.inj hp).symm
    exact fallback_extract_elements_ne_empty raw hseg
  · cases j with
    | null =>
      simp only [_parse_variations, hj] at hp
      obtain rfl := (Option.some.inj hp).symm
      exact fallback_extract_elements_ne_empty raw hseg
    | bool b =>
      simp only [_parse_variations, hj] at hp
      obtain rfl := (Option.some.inj hp).symm
      exact fallback_extract_elements_ne_empty raw hseg
    | num q =>
      simp only [_parse_variations, hj] at hp
      obtain rfl := (Option.some.inj hp).symm
      exact fallback_extract_elements_ne_empty raw hseg
    | str s =>
      simp only [_parse_variations, hj] at hp
      obtain rfl := (Option.some.inj hp).symm
      exact fallback_extract_elements_ne_empty raw hseg
    | arr items =>
      simp only [_parse_variations, hj] at hp
      obtain rfl := (Option.some.inj hp).symm
      have hsome : selectedElems raw = some items := by
        simp [selectedElems, hj]
      rw [hsome] at hsel
      have hall : items.all (fun j => !isEmptyStrItem j) = true := by
        simpa [noEmptyStrElem] using hsel
      exact finishCopies_elements_ne_empty raw _
        (processItems_ne_empty items hall) hseg
    | obj f =>
      simp only [_parse_variations, hj] at hp
      rcases hi : iterElems (dictItemsValue f) with _ | elems
      · rw [hi] at hp; cases hp
      · rw [hi] at hp
        obtain rfl := (Option.some.inj hp).symm
        have hsome : selectedElems raw = some elems := by
          simp [selectedElems, hj, hi]
        rw [hsome] at hsel
        have hall : elems.all (fun j => !isEmptyStrItem j) = true := by
          simpa [noEmptyStrElem] using hsel
        exact finishCopies_elements_ne_empty raw _
          (processItems_ne_empty elems hall) hseg

/-- Witness for C2 (amended) on a well-formed keyed response. -/
theorem parse_variations_elements_nonempty_witness :
    _parse_variations "\x7b\"variations\":[\x7b\"copy\":\"x\"\x7d]\x7d" = some ["x"] ∧
    noEmptyStrElem (selectedElems "\x7b\"variations\":[\x7b\"copy\":\"x\"\x7d]\x7d") = true ∧
    segmentsQuoteSafe "\x7b\"variations\":[\x7b\"copy\":\"x\"\x7d]\x7d" = true ∧
    ("x" : String) ≠ "" :=
  ⟨by decide, by decide, by decide,
   parse_variations_elements_nonempty "\x7b\"variations\":[\x7b\"copy\":\"x\"\x7d]\x7d"
     ["x"] (by decide) (by decide) (by decide) "x" (by simp)⟩

/-! ### C1 -/

/-- The concrete input of the spec's worked example. -/
def c1text : String := "Buy now! Buy now! Limited time, trusted by 10,000 customers."

lemma c1_cta : _cta_score (pyLower c1text) = 80 := by decide

lemma c1_social : _social_proof_score (pyLower c1text) = 80 := by
  have hm : (SOCIAL_PROOF_PATTERNS.filter
      (fun m => mSearch m (pyLower c1text).data)).length = 2 := by decide
  simp only [_social_proof_score, hm]
  norm_num [pyMin]

lemma c1_power :
    _keyword_density_score (pySplit (pyLower c1text)) POWER_WORDS = 68 := by
  have hne : ¬ (pySplit (pyLower c1text) = []) := by decide
  have hh : ((pySplit (pyLower c1text)).filter
      (fun w => POWER_WORDS.contains (stripChars TOKEN_STRIP_CHARS w))).length = 1 := by
    decide
  have ht : (pySplit (pyLower c1text)).length = 10 := by decide
  simp only [_keyword_density_score, if_neg hne, hh, ht]
  norm_num [densityValue, pyMax]

lemma c1_emotional :
    _keyword_density_score (pySplit (pyLower c1text)) EMOTIONAL_WORDS = 0 := by
  have hne : ¬ (pySplit (pyLower c1text) = []) := by decide
  have hh : ((pySplit (pyLower c1text)).filter
      (fun w => EMOTIONAL_WORDS.contains (stripChars TOKEN_STRIP_CHARS w))).length = 0 := by
    decide
  have ht : (pySplit (pyLower c1text)).length = 10 := by decide
  simp only [_keyword_density_score, if_neg hne, hh, ht]
  norm_num [densityValue]

lemma c1_urgency :
    _keyword_density_score (pySplit (pyLower c1text)) URGENCY_WORDS = 40 := by
  have hne : ¬ (pySplit (pyLower c1text) = []) := by decide
  have hh : ((pySplit (pyLower c1text)).filter
      (fun w => URGENCY_WORDS.contains (stripChars TOKEN_STRIP_CHARS w))).length = 3 := by
    decide
  have ht : (pySplit (pyLower c1text)).length = 10 := by decide
  simp only [_keyword_density_score, if_neg hne, hh, ht]
  norm_num [densityValue, pyMax]

lemma c1_length_score : _length_score c1text.length "instagram" = 48 := by
  have hl : c1text.length = 60 := by decide
  have he : (OPTIMAL_LENGTHS.lookup "instagram").getD (50, 500) = (100, 800) := by decide
  simp only [_length_score, hl, he]
  norm_num [pyMax]

lemma c1_sentences :
    sentenceList c1text =
      ["Buy now", "Buy now", "Limited time, trusted by 10,000 customers"] := by decide

lemma c1_readability_lengths : readabilityOfLengths [2, 2, 6] = 100 := by
  have e1 : ([2, 2, 6] : List ℕ).sum = 10 := by decide
  have e2 : ([2, 2, 6] : List ℕ).length = 3 := by decide
  simp only [readabilityOfLengths, e1, e2]
  have hmean : ((10 : ℕ) : ℝ) / ((3 : ℕ) : ℝ) = 10 / 3 := by norm_num
  rw [hmean, if_neg (by norm_num : ¬ ((10 : ℝ) / 3 = 0))]
  have emap : ([2, 2, 6] : List ℕ).map (fun l => ((l : ℝ) - 10 / 3) ^ 2) =
      [((2 : ℝ) - 10 / 3) ^ 2, ((2 : ℝ) - 10 / 3) ^ 2, ((6 : ℝ) - 10 / 3) ^ 2] := by
    norm_num [List.map_cons]
  rw [emap]
  have esum : ([((2 : ℝ) - 10 / 3) ^ 2, ((2 : ℝ) - 10 / 3) ^ 2,
      ((6 : ℝ) - 10 / 3) ^ 2].sum) = 32 / 3 := by
    norm_num [List.sum_cons]
  rw [esum]
  have evar : (32 : ℝ) / 3 / ((3 : ℕ) : ℝ) = 32 / 9 := by norm_num
  rw [evar]
  have hs1 : Real.sqrt ((32 : ℝ) / 9) ≤ 8 / 3 := by
    calc Real.sqrt ((32 : ℝ) / 9) ≤ Real.sqrt (((8 : ℝ) / 3) ^ 2) :=
          Real.sqrt_le_sqrt (by norm_num)
      _ = 8 / 3 := Real.sqrt_sq (by norm_num)
  have hs2 : (1 : ℝ) ≤ Real.sqrt ((32 : ℝ) / 9) := by
    calc (1 : ℝ) = Real.sqrt 1 := Real.sqrt_one.symm
      _ ≤ Real.sqrt ((32 : ℝ) / 9) := Real.sqrt_le_sqrt (by norm_num)
  have hcv1 : (3 : ℝ) / 10 ≤ Real.sqrt ((32 : ℝ) / 9) / (10 / 3) := by
    rw [le_div_iff₀ (by norm_num : (0 : ℝ) < 10 / 3)]
    nlinarith [hs2]
  have hcv2 : Real.sqrt ((32 : ℝ) / 9) / (10 / 3) ≤ 8 / 10 := by
    rw [div_le_iff₀ (by norm_num : (0 : ℝ) < 10 / 3)]
    nlinarith [hs1]
  rw [if_pos ⟨hcv1, hcv2⟩]

lemma c1_readability : _readability_score c1text = 100 := by
  simp only [_readability_score, c1_sentences]
  rw [if_neg (by norm_num)]
  rw [show (["Buy now", "Buy now",
      "Limited time, trusted by 10,000 customers"] : List String).map
      (fun s => (pySplit s).length) = [2, 2, 6] from by decide]
  exact c1_readability_lengths

lemma c1_raw : PersuasionScorer.rawScore c1text "instagram" = 59.4 := by
  simp only [PersuasionScorer.rawScore]
  rw [c1_cta, c1_power, c1_emotional, c1_urgency, c1_length_score,
    c1_readability, c1_social]
  norm_num

lemma c1_score : PersuasionScorer.score c1text "instagram" = 59.4 := by
  have hw : (pySplit (pyLower c1text)).length = 10 := by decide
  simp only [PersuasionScorer.score, hw]
  rw [if_neg (by norm_num), c1_raw]
  rw [show max (59.4 : ℝ) 0 = 59.4 from by norm_num,
    show min (59.4 : ℝ) 100 = 59.4 from by norm_num]
  unfold pyRound1
  rw [show (10 : ℝ) * 59.4 = ((594 : ℤ) : ℝ) from by norm_num, round_intCast]
  norm_num

/-- C1 counterexample: on the spec's worked example the CTA sub-score is
not 100 — the two occurrences of "buy now" count as one phrase match — and
the overall score is not above 60. -/
theorem c1_example_not_as_claimed :
    ¬ (_cta_score (pyLower c1text) = 100 ∧
       0 < _social_proof_score (pyLower c1text) ∧
       60 < PersuasionScorer.score c1text "instagram") := by
  intro h
  have h1 := h.1
  rw [c1_cta] at h1
  norm_num at h1

/-- C1 amended: scoring "Buy now! Buy now! Limited time, trusted by 10,000
customers." on instagram gives CTA sub-score 80 (one distinct strong
phrase), a positive social-proof sub-score, and overall score exactly
59.4. -/
theorem c1_example_actual :
    _cta_score (pyLower c1text) = 80 ∧
    0 < _social_proof_score (pyLower c1text) ∧
    PersuasionScorer.score c1text "instagram" = 59.4 := by
  refine ⟨c1_cta, ?_, c1_score⟩
  rw [c1_social]
  norm_num
